import Mathlib

/-!
Verification of the remote image-to-3D-asset acquisition pipeline:
the parallel chunk downloader, the transfer session state machine and
the time-bounded PLY content cache.  Definitions are shallow embeddings
of the Rust source (src/image_uploader.rs, src/ply_cache.rs, src/main.rs);
network, file-system and clock effects are passed in explicitly as
oracles so that the control flow of the source is preserved verbatim.
-/

/-- Byte buffers are modelled as lists of naturals. -/
abbrev Bytes := List Nat

/-- `DownloadInfo` mirrors the metadata JSON decoded in
`download_ply_parallel` (src/image_uploader.rs, struct `DownloadInfo`). -/
structure DownloadInfo where
  file_size : Nat
  chunk_size : Nat
  num_chunks : Nat
  filename : String
deriving DecidableEq

/-- The error text produced at `return Err(format!("块 {} 下载失败", i))`
when slot `i` is found empty during reassembly. -/
def chunkFailMsg (i : Nat) : String :=
  "块 " ++ toString i ++ " 下载失败"

/-- The error text produced by the final size check
(`"文件大小不匹配: 预期 {} bytes, 实际 {} bytes"`). -/
def sizeMismatchMsg (expected actual : Nat) : String :=
  "文件大小不匹配: 预期 " ++ toString expected ++ " bytes, 实际 " ++ toString actual ++ " bytes"

/-- The chunk slot table after all spawned fetches have joined: one slot per
chunk index `0..n-1`, slot `i` holding the bytes written by the fetch of
chunk `i` (`chunks[chunk_id] = Some(data)`), or `none` when that fetch
failed (request error, non-success status, or body read error all leave the
slot untouched).  The fetch outcome of index `i` is the oracle `fetch i`. -/
def chunkSlots (fetch : Nat → Option Bytes) (n : Nat) : List (Option Bytes) :=
  (List.range n).map fetch

/-- The reassembly loop (`for (i, chunk) in chunks.iter().enumerate()`),
scanning slots from index `k` upward with accumulator `acc`:
an empty slot aborts with `chunkFailMsg` of its index, otherwise each
slot's bytes are appended in order. -/
def reassembleFrom (k : Nat) (acc : Bytes) : List (Option Bytes) → Except String Bytes
  | [] => .ok acc
  | none :: _ => .error (chunkFailMsg k)
  | some d :: rest => reassembleFrom (k + 1) (acc ++ d) rest

/-- Reassembly of the whole slot table, starting at index 0 with an empty
result buffer. -/
def reassemble (slots : List (Option Bytes)) : Except String Bytes :=
  reassembleFrom 0 [] slots

/-- The concatenation, in index order, of the contents of a fully (or
partially) filled slot table; empty slots contribute nothing.  Used to
state what reassembly produces when every slot is filled. -/
def flattenSlots (slots : List (Option Bytes)) : Bytes :=
  (slots.map (fun o => o.getD [])).flatten

/-- `download_ply_parallel` after a successful metadata fetch
(src/image_uploader.rs lines 93-156): build the `num_chunks`-slot table
from the per-chunk fetch outcomes, join, reassemble in index order, then
verify the reassembled length against the reported `file_size`. -/
def download_ply_parallel (info : DownloadInfo) (fetch : Nat → Option Bytes) :
    Except String Bytes :=
  let slots := chunkSlots fetch info.num_chunks
  match reassemble slots with
  | .error e => .error e
  | .ok result =>
    if result.length ≠ info.file_size then
      .error (sizeMismatchMsg info.file_size result.length)
    else
      .ok result

/-- The transfer status variant (enum `UploadStatus` in
src/image_uploader.rs).  `progress` values are the exact literals the code
writes (0.0, 0.5, 1.0), modelled as rationals; `total_time` is the elapsed
wall-clock seconds, modelled as an abstract rational. -/
inductive UploadStatus where
  | Idle : UploadStatus
  | SelectingFile : UploadStatus
  | Uploading (progress : Rat) : UploadStatus
  | Processing (stage : String) : UploadStatus
  | Downloading (progress : Rat) : UploadStatus
  | Completed (ply_path : String) (total_time : Rat) : UploadStatus
  | Error (message : String) : UploadStatus
deriving DecidableEq

/-- Outcome of the blocking `POST /api/predict` request as the code
distinguishes it: transport failure (`send()` returned `Err`), non-success
HTTP status, or success. -/
inductive PredictOutcome where
  | netErr (msg : String) : PredictOutcome
  | httpErr (code : String) : PredictOutcome
  | success : PredictOutcome
deriving DecidableEq

/-- Oracle for all external effects of one `upload_and_process` run:
the local image read, the predict request, the job-id JSON parse, the
parallel download result, the PLY persistence write (`some e` = I/O error
`e`, `none` = success) and the elapsed wall-clock time observed at the end. -/
structure RunEnv where
  readImage : Except String Bytes
  predict : PredictOutcome
  parseJob : Except String String
  download : Except String Bytes
  writePly : Option String
  elapsed : Rat

/-- The fixed local asset location `assets/generated.ply`. -/
def outputPath : String := "assets/generated.ply"

/-- The `Processing` stage text set immediately before the predict request. -/
def sharpStage : String := "SHARP推理中 (预计0.5秒)..."

/-- `upload_and_process` (src/image_uploader.rs lines 159-282) as a trace
semantics: first component is the ordered list of statuses passed to
`set_status` during the run, second is the file-system write performed on
success (path and exact bytes), `none` when no PLY file was written.
The control flow copies the source: `Uploading{0.0}` before the file read,
`Uploading{0.5}` and `Uploading{1.0}` around form construction,
`Processing{..}` before the predict request is sent, `Downloading{0.0}`
before invoking the downloader, `Downloading{1.0}` after it, then the
write and `Completed`; every failure sets `Error{..}` and returns. -/
def upload_and_process (env : RunEnv) : List UploadStatus × Option (String × Bytes) :=
  match env.readImage with
  | .error e => ([.Uploading 0, .Error ("读取图片失败: " ++ e)], none)
  | .ok _ =>
    match env.predict with
    | .netErr e =>
      ([.Uploading 0, .Uploading (1/2), .Uploading 1, .Processing sharpStage,
        .Error ("请求失败: " ++ e)], none)
    | .httpErr c =>
      ([.Uploading 0, .Uploading (1/2), .Uploading 1, .Processing sharpStage,
        .Error ("服务器错误: " ++ c)], none)
    | .success =>
      match env.parseJob with
      | .error e =>
        ([.Uploading 0, .Uploading (1/2), .Uploading 1, .Processing sharpStage,
          .Error ("解析响应失败: " ++ e)], none)
      | .ok _jobId =>
        match env.download with
        | .error e =>
          ([.Uploading 0, .Uploading (1/2), .Uploading 1, .Processing sharpStage,
            .Downloading 0, .Error ("下载失败: " ++ e)], none)
        | .ok data =>
          match env.writePly with
          | some e =>
            ([.Uploading 0, .Uploading (1/2), .Uploading 1, .Processing sharpStage,
              .Downloading 0, .Downloading 1, .Error ("保存PLY失败: " ++ e)], none)
          | none =>
            ([.Uploading 0, .Uploading (1/2), .Uploading 1, .Processing sharpStage,
              .Downloading 0, .Downloading 1, .Completed outputPath env.elapsed],
             some (outputPath, data))

/-- The full sequence of status values observable during one run: the
initial `Idle` (the `Default` value of `ImageUploadState`) followed by
every status the run publishes through `set_status`. -/
def publishedStatuses (env : RunEnv) : List UploadStatus :=
  UploadStatus.Idle :: (upload_and_process env).1

/-- The variant tag of a status, forgetting payloads. -/
inductive StatusTag where
  | idle | selectingFile | uploading | processing | downloading | completed | errorTag
deriving DecidableEq

/-- Tag of each `UploadStatus` value. -/
def UploadStatus.tag : UploadStatus → StatusTag
  | .Idle => .idle
  | .SelectingFile => .selectingFile
  | .Uploading _ => .uploading
  | .Processing _ => .processing
  | .Downloading _ => .downloading
  | .Completed _ _ => .completed
  | .Error _ => .errorTag

/-- Collapse consecutive equal tags, so that e.g. the three `Uploading`
milestones count as one visit to the `Uploading` state. -/
def squeezeTags : List StatusTag → List StatusTag
  | [] => []
  | [a] => [a]
  | a :: b :: rest => if a = b then squeezeTags (b :: rest) else a :: squeezeTags (b :: rest)

/-- `handle_import_key` (src/main.rs lines 385-398), given that the I key
was just pressed: a run is started (the file dialog is triggered) exactly
when the current status matches `Idle | Completed {..} | Error {..}`;
in either branch only a log line is emitted and the status is not
modified, so the result records whether a run started and the (unchanged)
status. -/
def handle_import_key (status : UploadStatus) : Bool × UploadStatus :=
  match status with
  | .Idle => (true, status)
  | .Completed _ _ => (true, status)
  | .Error _ => (true, status)
  | _ => (false, status)

/-- A cache file on disk: its content bytes and its readable modification
time in seconds (`none` models a file whose `fs::metadata` /
`metadata.modified()` inspection fails). -/
structure CacheFile where
  data : Bytes
  mtime : Option Nat
deriving DecidableEq

/-- The cache directory: an association list from file name (within the
cache root) to file, at most one entry per name. -/
structure CacheFS where
  entries : List (String × CacheFile)
deriving DecidableEq

/-- Look a file up by name (models `path.exists()` / `fs::read`). -/
def CacheFS.find (fs : CacheFS) (p : String) : Option CacheFile :=
  (fs.entries.find? (fun e => e.1 = p)).map (fun e => e.2)

/-- `PlyCacheManager` configuration: the expiry window fixed at
construction (default 24*3600 seconds in the source). -/
structure PlyCacheManager where
  max_age_secs : Nat
deriving DecidableEq

/-- `cache_path`: the file name `{name}.ply` under the cache root. -/
def cache_path (name : String) : String := name ++ ".ply"

/-- `is_cached` (src/ply_cache.rs lines 34-50): false when the file does
not exist; false when metadata or modification time cannot be read; false
when `SystemTime::now().duration_since(modified)` fails (modification time
in the future); otherwise true iff the elapsed seconds are strictly below
`max_age_secs`. -/
def is_cached (c : PlyCacheManager) (fs : CacheFS) (now : Nat) (name : String) : Bool :=
  match fs.find (cache_path name) with
  | none => false
  | some f =>
    match f.mtime with
    | none => false
    | some m => if m ≤ now then decide (now - m < c.max_age_secs) else false

/-- `load_from_cache` (src/ply_cache.rs lines 53-60): `none` unless
`is_cached`, otherwise the stored bytes. -/
def load_from_cache (c : PlyCacheManager) (fs : CacheFS) (now : Nat) (name : String) :
    Option Bytes :=
  if is_cached c fs now name then
    (fs.find (cache_path name)).map (fun f => f.data)
  else
    none

/-- `save_to_cache` (src/ply_cache.rs lines 63-68): write/overwrite the
file `{name}.ply` with the given bytes; its modification time becomes the
current time. -/
def save_to_cache (fs : CacheFS) (name : String) (data : Bytes) (now : Nat) : CacheFS :=
  ⟨(cache_path name, ⟨data, some now⟩) :: fs.entries.filter (fun e => e.1 ≠ cache_path name)⟩

/-- Whether a directory entry has the `ply` extension
(`path.extension().and_then(|s| s.to_str()) == Some("ply")`): the name
ends in `.ply` with a non-empty stem before it. -/
def isPlyFile (p : String) : Bool :=
  decide (p.data.reverse.take 4 = ['y', 'l', 'p', '.']) && decide (4 < p.data.length)

/-- Whether `cleanup_expired` removes this entry: it has the `ply`
extension, its modification time is readable, `duration_since` succeeds
(modification time not in the future) and the elapsed seconds have reached
`max_age_secs`.  An entry failing any of these tests is skipped. -/
def expiredEntry (maxAge now : Nat) (e : String × CacheFile) : Bool :=
  isPlyFile e.1 &&
    match e.2.mtime with
    | none => false
    | some m => if m ≤ now then decide (maxAge ≤ now - m) else false

/-- The directory walk of `cleanup_expired`: keep every non-expired entry,
remove and count every expired one, in iteration order. -/
def cleanupEntries (maxAge now : Nat) :
    List (String × CacheFile) → List (String × CacheFile) × Nat
  | [] => ([], 0)
  | e :: rest =>
    let r := cleanupEntries maxAge now rest
    if expiredEntry maxAge now e then (r.1, r.2 + 1) else (e :: r.1, r.2)

/-- `cleanup_expired` (src/ply_cache.rs lines 71-96): sweep the cache
directory, removing every expired `.ply` file, and return the surviving
directory together with the removed count. -/
def cleanup_expired (c : PlyCacheManager) (fs : CacheFS) (now : Nat) : CacheFS × Nat :=
  let r := cleanupEntries c.max_age_secs now fs.entries
  (⟨r.1⟩, r.2)

/-- A concrete run environment whose predict request fails at the
transport level; all later stages are irrelevant because the run returns
early. -/
def predictFailEnv : RunEnv :=
  { readImage := .ok [1, 2, 3]
    predict := .netErr "connection refused"
    parseJob := .error "unused"
    download := .error "unused"
    writePly := none
    elapsed := 0 }

/-- A concrete run environment in which every stage succeeds. -/
def successEnv : RunEnv :=
  { readImage := .ok [9]
    predict := .success
    parseJob := .ok "job-1"
    download := .ok [1, 2]
    writePly := none
    elapsed := 7 }

/-- A concrete fully-successful run environment used to witness the
persistence behaviour. -/
def persistEnv : RunEnv :=
  { readImage := .ok [4]
    predict := .success
    parseJob := .ok "job-2"
    download := .ok [10, 20, 30]
    writePly := none
    elapsed := 3 }

theorem chunkSlots_length (fetch : Nat → Option Bytes) (n : Nat) :
    (chunkSlots fetch n).length = n := by
  simp [chunkSlots]

theorem chunkSlots_get (fetch : Nat → Option Bytes) (n i : Nat) (h : i < n) :
    (chunkSlots fetch n).get ⟨i, by simpa [chunkSlots] using h⟩ = fetch i := by
  simp [chunkSlots]

theorem reassembleFrom_all_some (slots : List (Option Bytes))
    (h : ∀ o ∈ slots, o.isSome) (k : Nat) (acc : Bytes) :
    reassembleFrom k acc slots = .ok (acc ++ flattenSlots slots) := by
  induction slots generalizing k acc with
  | nil => simp [reassembleFrom, flattenSlots]
  | cons o rest ih =>
    match o with
    | none => exact absurd (h none (by simp)) (by simp)
    | some d =>
      have hrest : ∀ o ∈ rest, o.isSome := fun o ho => h o (by simp [ho])
      simp [reassembleFrom, ih hrest, flattenSlots, List.append_assoc]

theorem reassembleFrom_first_none (slots : List (Option Bytes)) (i : Nat)
    (hi : i < slots.length) (hnone : slots.get ⟨i, hi⟩ = none)
    (hmin : ∀ j (hj : j < slots.length), j < i → slots.get ⟨j, hj⟩ ≠ none)
    (k : Nat) (acc : Bytes) :
    reassembleFrom k acc slots = .error (chunkFailMsg (k + i)) := by
  induction slots generalizing i k acc with
  | nil => exact absurd hi (by simp)
  | cons o rest ih =>
    match o with
    | none =>
      have hi0 : i = 0 := by
        by_contra hne
        exact hmin 0 (by simp) (Nat.pos_of_ne_zero hne) rfl
      simp [reassembleFrom, hi0]
    | some d =>
      match i with
      | 0 => simp at hnone
      | i + 1 =>
        have hi' : i < rest.length := by
          simpa using Nat.lt_of_succ_lt_succ (by simpa using hi)
        have hnone' : rest.get ⟨i, hi'⟩ = none := by simpa using hnone
        have hmin' : ∀ j (hj : j < rest.length), j < i → rest.get ⟨j, hj⟩ ≠ none := by
          intro j hj hji
          have := hmin (j + 1) (by simpa using Nat.succ_lt_succ hj) (Nat.succ_lt_succ hji)
          simpa using this
        have := ih i hi' hnone' hmin' (k + 1) (acc ++ d)
        simp only [reassembleFrom, this]
        have : k + 1 + i = k + (i + 1) := by omega
        rw [this]

theorem reassembleFrom_has_none (slots : List (Option Bytes))
    (h : none ∈ slots) (k : Nat) (acc : Bytes) :
    ∃ e, reassembleFrom k acc slots = .error e := by
  induction slots generalizing k acc with
  | nil => simp at h
  | cons o rest ih =>
    match o with
    | none => exact ⟨chunkFailMsg k, rfl⟩
    | some d =>
      have h' : none ∈ rest := by simpa using h
      exact ih h' (k + 1) (acc ++ d)

theorem reassemble_all_some (slots : List (Option Bytes))
    (h : ∀ o ∈ slots, o.isSome) :
    reassemble slots = .ok (flattenSlots slots) := by
  simpa [reassemble] using reassembleFrom_all_some slots h 0 []

/-- Claim C10 (confirmed): when reassembly fails because of an empty chunk
slot, the `DownloadError` diagnostic names the smallest empty slot index:
for every slot table with an empty slot at minimal index `i`, the
reassembly scan fails with exactly the message naming chunk `i`. -/
theorem C10_min_index (slots : List (Option Bytes)) (i : Nat) (hi : i < slots.length)
    (hnone : slots.get ⟨i, hi⟩ = none)
    (hmin : ∀ j (hj : j < slots.length), j < i → slots.get ⟨j, hj⟩ ≠ none) :
    reassemble slots = .error (chunkFailMsg i) := by
  simpa [reassemble] using reassembleFrom_first_none slots i hi hnone hmin 0 []

/-- Witness for C10 at a concrete slot table whose empty slots are at
indices 1 and 2: the reported index is 1, the smallest. -/
theorem C10_min_index_witness :
    reassemble [some [5], none, none] = .error (chunkFailMsg 1) :=
  C10_min_index [some [5], none, none] 1 (by decide) (by decide)
    (by decide)

/-- Counterexample to claim C1 as stated: with server-reported
`num_chunks = 1` and `file_size = 2`, the single chunk fetch succeeds with
one byte, so all 1 slots are filled, yet `download_ply_parallel` does not
return the concatenation of the slots — the size check turns the run into
an error. -/
theorem C1_counterexample :
    (∀ i, i < 1 → ((fun _ : Nat => some ([0] : Bytes)) i).isSome = true) ∧
    download_ply_parallel ⟨2, 1, 1, "f"⟩ (fun _ => some [0]) ≠
      Except.ok (flattenSlots (chunkSlots (fun _ => some [0]) 1)) := by
  refine ⟨fun i _ => rfl, ?_⟩
  intro h
  have heval : download_ply_parallel ⟨2, 1, 1, "f"⟩ (fun _ => some [0]) =
      Except.error (sizeMismatchMsg 2 1) := rfl
  rw [heval] at h
  exact Except.noConfusion h

/-- Claim C1 (amended): for every server-reported `chunk_count = N`, the
downloader builds an `N`-slot table holding exactly one fetch outcome per
chunk index `0..N-1`; after the join it fails whenever any of the `N`
fetches left its slot empty, regardless of which index; and when all `N`
slots are filled, the reassembled buffer is exactly the byte-identical
concatenation of the slots in index order and is returned whenever its
length equals the reported `file_size`. -/
theorem C1_fetch_reassembly (info : DownloadInfo) (fetch : Nat → Option Bytes) :
    ((chunkSlots fetch info.num_chunks).length = info.num_chunks ∧
      ∀ i (h : i < info.num_chunks),
        (chunkSlots fetch info.num_chunks).get
          ⟨i, by simpa [chunkSlots] using h⟩ = fetch i) ∧
    ((∃ i, i < info.num_chunks ∧ fetch i = none) →
      ∃ e, download_ply_parallel info fetch = .error e) ∧
    ((∀ i, i < info.num_chunks → (fetch i).isSome) →
      reassemble (chunkSlots fetch info.num_chunks) =
        .ok (flattenSlots (chunkSlots fetch info.num_chunks)) ∧
      ((flattenSlots (chunkSlots fetch info.num_chunks)).length = info.file_size →
        download_ply_parallel info fetch =
          .ok (flattenSlots (chunkSlots fetch info.num_chunks)))) := by
  refine ⟨⟨chunkSlots_length fetch info.num_chunks, chunkSlots_get fetch info.num_chunks⟩,
    ?_, ?_⟩
  · rintro ⟨i, hi, hnone⟩
    have hmem : none ∈ chunkSlots fetch info.num_chunks := by
      simp only [chunkSlots, List.mem_map]
      exact ⟨i, by simpa using hi, hnone⟩
    obtain ⟨e, he⟩ := reassembleFrom_has_none _ hmem 0 []
    refine ⟨e, ?_⟩
    simp only [download_ply_parallel]
    rw [show reassemble (chunkSlots fetch info.num_chunks) = .error e from he]
  · intro hall
    have hsome : ∀ o ∈ chunkSlots fetch info.num_chunks, o.isSome := by
      intro o ho
      simp only [chunkSlots, List.mem_map, List.mem_range] at ho
      obtain ⟨a, ha, rfl⟩ := ho
      exact hall a ha
    have hok := reassemble_all_some _ hsome
    refine ⟨hok, fun hlen => ?_⟩
    simp only [download_ply_parallel]
    rw [hok]
    simp [hlen]

/-- Witness for C1 at `num_chunks = 2`, `file_size = 3`, both fetches
succeeding with chunks `[1,2]` and `[3]`: the downloader returns the
concatenation `[1,2,3]`. -/
theorem C1_fetch_reassembly_witness :
    download_ply_parallel ⟨3, 2, 2, "f"⟩
        (fun i => if i = 0 then some [1, 2] else some [3]) =
      .ok (flattenSlots (chunkSlots
        (fun i => if i = 0 then some [1, 2] else some [3]) 2)) :=
  ((C1_fetch_reassembly ⟨3, 2, 2, "f"⟩
      (fun i => if i = 0 then some [1, 2] else some [3])).2.2
    (by decide)).2 (by decide)

/-- Claim C2 (confirmed): even when every individual chunk fetch
succeeded, the downloader returns the size-mismatch `DownloadError`
whenever the reassembled length differs from the reported `file_size`;
and it returns `Ok` only with a buffer whose length equals `file_size`. -/
theorem C2_size_check (info : DownloadInfo) (fetch : Nat → Option Bytes) :
    ((∀ i, i < info.num_chunks → (fetch i).isSome) →
      (flattenSlots (chunkSlots fetch info.num_chunks)).length ≠ info.file_size →
      download_ply_parallel info fetch =
        .error (sizeMismatchMsg info.file_size
          (flattenSlots (chunkSlots fetch info.num_chunks)).length)) ∧
    (∀ b, download_ply_parallel info fetch = .ok b → b.length = info.file_size) := by
  constructor
  · intro hall hlen
    have hsome : ∀ o ∈ chunkSlots fetch info.num_chunks, o.isSome := by
      intro o ho
      simp only [chunkSlots, List.mem_map, List.mem_range] at ho
      obtain ⟨a, ha, rfl⟩ := ho
      exact hall a ha
    have hok := reassemble_all_some _ hsome
    simp only [download_ply_parallel]
    rw [hok]
    simp [hlen]
  · intro b hb
    simp only [download_ply_parallel] at hb
    cases hre : reassemble (chunkSlots fetch info.num_chunks) with
    | error e => rw [hre] at hb; exact Except.noConfusion hb
    | ok result =>
      rw [hre] at hb
      by_cases hl : result.length = info.file_size
      · simp only [hl] at hb
        simp only [ne_eq, not_true_eq_false, if_neg, ite_false, not_false_eq_true,
          if_false] at hb
        cases hb
        exact hl
      · simp [hl] at hb

/-- Witness for C2: one chunk of one byte against a reported `file_size`
of 2 yields the size-mismatch error although the chunk fetch succeeded. -/
theorem C2_size_check_witness :
    download_ply_parallel ⟨2, 1, 1, "f"⟩ (fun _ => some [9]) =
      .error (sizeMismatchMsg 2
        (flattenSlots (chunkSlots (fun _ => some [9]) 1)).length) :=
  (C2_size_check ⟨2, 1, 1, "f"⟩ (fun _ => some [9])).1 (by decide) (by decide)

/-- Counterexample to claim C3 as stated: in a run whose predict request
fails with a transport error, the published trace does contain a
`Processing` status — the code sets `Processing{..}` immediately before
sending the predict request — although the run still ends in `Error`. -/
theorem C3_counterexample :
    predictFailEnv.predict = PredictOutcome.netErr "connection refused" ∧
    UploadStatus.Processing sharpStage ∈ (upload_and_process predictFailEnv).1 ∧
    (upload_and_process predictFailEnv).1.getLast? =
      some (UploadStatus.Error ("请求失败: " ++ "connection refused")) := by
  refine ⟨rfl, ?_, rfl⟩
  simp [upload_and_process, predictFailEnv]

/-- Claim C3 (amended): when the predict request fails — transport error
or non-success HTTP status — the run publishes exactly the three
`Uploading` milestones, the `Processing` status set just before the
request, and then transitions directly to `Error`; in particular the
status is never `Downloading` during such a run. -/
theorem C3_predict_failure (env : RunEnv) (img : Bytes)
    (h1 : env.readImage = .ok img) :
    (∀ e, env.predict = .netErr e →
      (upload_and_process env).1 =
        [.Uploading 0, .Uploading (1/2), .Uploading 1, .Processing sharpStage,
         .Error ("请求失败: " ++ e)]) ∧
    (∀ c, env.predict = .httpErr c →
      (upload_and_process env).1 =
        [.Uploading 0, .Uploading (1/2), .Uploading 1, .Processing sharpStage,
         .Error ("服务器错误: " ++ c)]) ∧
    (env.predict ≠ .success →
      ∀ p, UploadStatus.Downloading p ∉ (upload_and_process env).1) := by
  refine ⟨?_, ?_, ?_⟩
  · intro e he
    simp [upload_and_process, h1, he]
  · intro c hc
    simp [upload_and_process, h1, hc]
  · intro hne p
    cases hp : env.predict with
    | netErr e => simp [upload_and_process, h1, hp]
    | httpErr c => simp [upload_and_process, h1, hp]
    | success => exact absurd hp hne

/-- Witness for C3 at the concrete failing-predict environment. -/
theorem C3_predict_failure_witness :
    (upload_and_process predictFailEnv).1 =
      [.Uploading 0, .Uploading (1/2), .Uploading 1, .Processing sharpStage,
       .Error ("请求失败: " ++ "connection refused")] :=
  (C3_predict_failure predictFailEnv [1, 2, 3] rfl).1 "connection refused" rfl

/-- Claim C4 (confirmed): in a fully successful run the sequence of
status variants published — the initial `Idle` followed by every status
set during the run, with consecutive repeats of the same variant
collapsed — is exactly
`Idle → Uploading → Processing → Downloading → Completed`. -/
theorem C4_success_order (env : RunEnv) (img : Bytes) (job : String) (data : Bytes)
    (h1 : env.readImage = .ok img) (h2 : env.predict = .success)
    (h3 : env.parseJob = .ok job) (h4 : env.download = .ok data)
    (h5 : env.writePly = none) :
    squeezeTags ((publishedStatuses env).map UploadStatus.tag) =
      [.idle, .uploading, .processing, .downloading, .completed] := by
  simp [publishedStatuses, upload_and_process, h1, h2, h3, h4, h5,
    squeezeTags, UploadStatus.tag]

/-- Witness for C4 at a concrete all-success environment. -/
theorem C4_success_order_witness :
    squeezeTags ((publishedStatuses successEnv).map UploadStatus.tag) =
      [.idle, .uploading, .processing, .downloading, .completed] :=
  C4_success_order successEnv [9] "job-1" [1, 2] rfl rfl rfl rfl rfl

/-- Claim C5 (confirmed): pressing the import key starts a new run if and
only if the current status is `Idle`, `Completed{..}` or `Error{..}`; in
every case — started or rejected — the handler leaves the status
unchanged and returns normally (no error value exists in its type). -/
theorem C5_begin_guard (s : UploadStatus) :
    ((handle_import_key s).1 = true ↔
      s = .Idle ∨ (∃ p t, s = .Completed p t) ∨ (∃ m, s = .Error m)) ∧
    (handle_import_key s).2 = s := by
  cases s <;> simp [handle_import_key]

/-- Claim C6 (confirmed): for every name and non-empty byte sequence,
storing and then immediately loading under the same clock value returns
exactly the stored bytes, provided the expiry window is positive. -/
theorem C6_store_load_roundtrip (c : PlyCacheManager) (fs : CacheFS) (now : Nat)
    (name : String) (B : Bytes) (_hB : B ≠ []) (hage : 0 < c.max_age_secs) :
    load_from_cache c (save_to_cache fs name B now) now name = some B := by
  have hfind : (save_to_cache fs name B now).find (cache_path name) =
      some ⟨B, some now⟩ := by
    simp [save_to_cache, CacheFS.find, List.find?]
  simp [load_from_cache, is_cached, hfind, hage]

/-- Witness for C6 at a concrete store of `[7]` under the name `x`. -/
theorem C6_store_load_roundtrip_witness :
    load_from_cache ⟨86400⟩ (save_to_cache ⟨[]⟩ "x" [7] 100) 100 "x" = some [7] :=
  C6_store_load_roundtrip ⟨86400⟩ ⟨[]⟩ 100 "x" [7] (by simp) (by decide)

/-- Claim C7 (confirmed): `is_cached` is true exactly when the file
`{name}.ply` exists, its modification time is readable and not in the
future, and its age is strictly below `max_age_secs`; in particular it is
false for a name with no file, false once the age reaches `max_age_secs`,
and false whenever the metadata inspection fails — no error is raised. -/
theorem C7_is_valid (c : PlyCacheManager) (fs : CacheFS) (now : Nat) (name : String) :
    (is_cached c fs now name = true ↔
      ∃ f m, fs.find (cache_path name) = some f ∧ f.mtime = some m ∧
        m ≤ now ∧ now - m < c.max_age_secs) ∧
    (fs.find (cache_path name) = none → is_cached c fs now name = false) ∧
    (∀ f, fs.find (cache_path name) = some f → f.mtime = none →
      is_cached c fs now name = false) ∧
    (∀ f m, fs.find (cache_path name) = some f → f.mtime = some m → m ≤ now →
      c.max_age_secs ≤ now - m → is_cached c fs now name = false) := by
  refine ⟨?_, ?_, ?_, ?_⟩
  · constructor
    · intro h
      rcases hfind : fs.find (cache_path name) with _ | ⟨data, mt⟩
      · simp [is_cached, hfind] at h
      · rcases mt with _ | m
        · simp [is_cached, hfind] at h
        · by_cases hle : m ≤ now
          · refine ⟨⟨data, some m⟩, m, rfl, rfl, hle, ?_⟩
            simpa [is_cached, hfind, hle] using h
          · simp [is_cached, hfind, hle] at h
    · rintro ⟨f, m, hfind, hmt, hle, hlt⟩
      simp [is_cached, hfind, hmt, hle, hlt]
  · intro hfind
    simp [is_cached, hfind]
  · intro f hfind hmt
    simp [is_cached, hfind, hmt]
  · intro f m hfind hmt hle hge
    simp only [is_cached, hfind, hmt, if_pos hle]
    simpa using Nat.not_lt.mpr hge

/-- Witness for C7: a name with no stored file is not valid. -/
theorem C7_is_valid_witness :
    is_cached ⟨86400⟩ ⟨[]⟩ 5 "never-stored" = false :=
  (C7_is_valid ⟨86400⟩ ⟨[]⟩ 5 "never-stored").2.1 rfl

/-- Claim C8 (confirmed): the sweep removes exactly the `.ply` entries
whose readable age has reached `max_age_secs` and returns exactly that
count; every entry within the window, every non-expired entry and every
entry whose metadata inspection fails is still present afterwards. -/
theorem C8_sweep (c : PlyCacheManager) (fs : CacheFS) (now : Nat) :
    (cleanup_expired c fs now).1.entries =
      fs.entries.filter (fun e => !expiredEntry c.max_age_secs now e) ∧
    (cleanup_expired c fs now).2 =
      (fs.entries.filter (expiredEntry c.max_age_secs now)).length ∧
    (∀ e ∈ fs.entries, expiredEntry c.max_age_secs now e = false →
      e ∈ (cleanup_expired c fs now).1.entries) ∧
    (∀ e ∈ fs.entries, e.2.mtime = none →
      e ∈ (cleanup_expired c fs now).1.entries) := by
  have key : ∀ l : List (String × CacheFile),
      cleanupEntries c.max_age_secs now l =
        (l.filter (fun e => !expiredEntry c.max_age_secs now e),
         (l.filter (expiredEntry c.max_age_secs now)).length) := by
    intro l
    induction l with
    | nil => rfl
    | cons e rest ih =>
      by_cases h : expiredEntry c.max_age_secs now e = true
      · simp [cleanupEntries, ih, List.filter_cons, h]
      · simp only [Bool.not_eq_true] at h
        simp [cleanupEntries, ih, List.filter_cons, h]
  have h1 : (cleanup_expired c fs now).1.entries =
      fs.entries.filter (fun e => !expiredEntry c.max_age_secs now e) := by
    simp [cleanup_expired, key]
  have h2 : (cleanup_expired c fs now).2 =
      (fs.entries.filter (expiredEntry c.max_age_secs now)).length := by
    simp [cleanup_expired, key]
  refine ⟨h1, h2, ?_, ?_⟩
  · intro e he hexp
    rw [h1, List.mem_filter]
    exact ⟨he, by simp [hexp]⟩
  · intro e he hmt
    rw [h1, List.mem_filter]
    refine ⟨he, ?_⟩
    simp [expiredEntry, hmt]

/-- Witness for C8 on a concrete directory with `max_age = 10` at time 20:
the entry of age 20 is removed, the entry of age 5 remains, the non-ply
entry remains, the entry with unreadable metadata remains, and the count
is 1. -/
theorem C8_sweep_witness :
    ("b.ply", CacheFile.mk [2] (some 15)) ∈
      (cleanup_expired ⟨10⟩
        ⟨[("a.ply", ⟨[1], some 0⟩), ("b.ply", ⟨[2], some 15⟩),
          ("c.txt", ⟨[3], some 0⟩), ("d.ply", ⟨[4], none⟩)]⟩ 20).1.entries :=
  (C8_sweep ⟨10⟩
      ⟨[("a.ply", ⟨[1], some 0⟩), ("b.ply", ⟨[2], some 15⟩),
        ("c.txt", ⟨[3], some 0⟩), ("d.ply", ⟨[4], none⟩)]⟩ 20).2.2.1
    ("b.ply", CacheFile.mk [2] (some 15)) (by simp) (by decide)

/-- Claim C9 (confirmed): when the downloader succeeds, the run writes
the exact returned byte buffer, unmodified, to the fixed asset location
`assets/generated.ply` and its final published status is `Completed` with
that path and the elapsed wall-clock time; when that write fails, no file
result is produced and the final status is `Error` with a message. -/
theorem C9_persist (env : RunEnv) (img : Bytes) (job : String) (data : Bytes)
    (h1 : env.readImage = .ok img) (h2 : env.predict = .success)
    (h3 : env.parseJob = .ok job) (h4 : env.download = .ok data) :
    (env.writePly = none →
      (upload_and_process env).2 = some (outputPath, data) ∧
      (upload_and_process env).1.getLast? =
        some (.Completed outputPath env.elapsed)) ∧
    (∀ e, env.writePly = some e →
      (upload_and_process env).2 = none ∧
      (upload_and_process env).1.getLast? =
        some (.Error ("保存PLY失败: " ++ e))) := by
  constructor
  · intro h5
    simp [upload_and_process, h1, h2, h3, h4, h5]
  · intro e h5
    simp [upload_and_process, h1, h2, h3, h4, h5]

/-- Witness for C9 at a concrete all-success environment: the downloaded
bytes `[10, 20, 30]` are written verbatim to `assets/generated.ply` and
the run completes with that path and elapsed time 3. -/
theorem C9_persist_witness :
    (upload_and_process persistEnv).2 = some (outputPath, [10, 20, 30]) ∧
    (upload_and_process persistEnv).1.getLast? =
      some (.Completed outputPath persistEnv.elapsed) :=
  (C9_persist persistEnv [4] "job-2" [10, 20, 30] rfl rfl rfl rfl).1 rfl
